import Mathlib

/-!
Verification development for the RocksDB-backed recovery unit
(`src/mongo/db/storage/rocks/rocks_recovery_unit.cpp`).

The embedding models keys and values as byte sequences (`List Nat`), the
store as an association list from (column family, key) to value, and the
shared in-memory atomic counters as an association list from a reference
identifier to an `Int` (C++ `long long`; signed overflow is undefined
behaviour in the source, so the pre-overflow integer is modelled).
Calls to the external collaborators (the RocksDB store and the
`RocksTransaction` conflict tracker) are recorded as an event trace, so
ordering properties between snapshot capture, batch application and
tracker notification can be stated.
-/

/-- A key or a value: a byte sequence (`rocksdb::Slice` / `std::string`). -/
abbrev Bytes := List Nat

/-- One operation recorded in the `rocksdb::WriteBatchWithIndex`:
a put or a delete against a column family (column families are modelled
by a numeric handle, the default column family being `defaultCF`). -/
inductive WriteOp
  | put (cf : Nat) (key : Bytes) (value : Bytes)
  | del (cf : Nat) (key : Bytes)
deriving DecidableEq, Repr

/-- The handle `_db->DefaultColumnFamily()`. -/
def defaultCF : Nat := 0

/-- The store contents: one value per (column family, key). -/
abbrev Store := List ((Nat × Bytes) × Bytes)

/-- Point lookup in the store (`rocksdb::DB::Get` without a write batch). -/
def storeLookup (s : Store) (cf : Nat) (k : Bytes) : Option Bytes :=
  match s with
  | [] => none
  | (k', v) :: rest => if k' = (cf, k) then some v else storeLookup rest cf k

/-- Insert or overwrite one key in the store. -/
def storeInsert (s : Store) (cf : Nat) (k : Bytes) (v : Bytes) : Store :=
  match s with
  | [] => [((cf, k), v)]
  | (k', v') :: rest =>
      if k' = (cf, k) then ((cf, k), v) :: rest
      else (k', v') :: storeInsert rest cf k v

/-- Erase one key from the store. -/
def storeErase (s : Store) (cf : Nat) (k : Bytes) : Store :=
  match s with
  | [] => []
  | (k', v') :: rest =>
      if k' = (cf, k) then storeErase rest cf k
      else (k', v') :: storeErase rest cf k

/-- Apply one buffered operation to the store. -/
def applyOp (s : Store) (op : WriteOp) : Store :=
  match op with
  | .put cf k v => storeInsert s cf k v
  | .del cf k => storeErase s cf k

/-- Apply a write batch to the store in order (`rocksdb::DB::Write`):
within the batch, a later operation on a key overrides an earlier one. -/
def applyBatch (s : Store) (b : List WriteOp) : Store :=
  b.foldl applyOp s

/-- The shared atomic counters (`std::atomic<long long>` objects reached
through pointers): reference identifier to current value. -/
abbrev Counters := List (Nat × Int)

/-- Read a shared counter (absent references read as zero-initialised). -/
def ctrLookup (cs : Counters) (r : Nat) : Int :=
  match cs with
  | [] => 0
  | (r', v) :: rest => if r' = r then v else ctrLookup rest r

/-- Write a shared counter. -/
def ctrUpdate (cs : Counters) (r : Nat) (v : Int) : Counters :=
  match cs with
  | [] => [(r, v)]
  | (r', v') :: rest =>
      if r' = r then (r, v) :: rest else (r', v') :: ctrUpdate rest r v

/-- `RocksRecoveryUnit::Counter`: a non-owning reference to a shared
atomic counter (`_value`, modelled by its reference identifier) plus the
delta accumulated in this unit of work (`_delta`). -/
structure Counter where
  _value : Nat
  _delta : Int
deriving DecidableEq, Repr

/-- The `_deltaCounters` map: counter key to `Counter` entry.
The source uses `std::map<std::string, Counter>`; the model is an
association list with at most one entry per key.  (The source map
iterates in key order; the model iterates in insertion order, which is
observable only in the relative order of the per-key counter puts
appended at commit, never in any per-key result.) -/
abbrev DeltaCounters := List (Bytes × Counter)

/-- Find the entry for a counter key (`_deltaCounters.find`). -/
def dcFind (dc : DeltaCounters) (k : Bytes) : Option Counter :=
  match dc with
  | [] => none
  | (k', c) :: rest => if k' = k then some c else dcFind rest k

/-- Add a delta into the existing entry for a key
(`pair->second._delta += delta`; the stored counter reference is kept). -/
def dcAdd (dc : DeltaCounters) (k : Bytes) (d : Int) : DeltaCounters :=
  match dc with
  | [] => []
  | (k', c) :: rest =>
      if k' = k then (k', { c with _delta := c._delta + d }) :: rest
      else (k', c) :: dcAdd rest k d

/-- The fixed-width encoding of a `long long` written for a counter:
the 8 bytes of the two's-complement value, least significant byte first
(the reference platform's native byte order). -/
def encodeLL (v : Int) : Bytes :=
  let u := (v % (2 : Int) ^ 64).toNat
  [u % 256, u / 256 % 256, u / 256 ^ 2 % 256, u / 256 ^ 3 % 256,
   u / 256 ^ 4 % 256, u / 256 ^ 5 % 256, u / 256 ^ 6 % 256, u / 256 ^ 7 % 256]

/-- Externally visible calls made by the recovery unit, in program order:
to the store (`_db`) and to the conflict tracker (`_transaction`). -/
inductive Event
  /-- `_transaction.recordSnapshotId()` -/
  | recordSnapshotId
  /-- `_db->GetSnapshot()` -/
  | getSnapshot
  /-- `_db->Write(options, batch)`; records the batch written and the
  `disableWAL` flag of the options actually passed -/
  | storeWrite (batch : List WriteOp) (disableWAL : Bool)
  /-- `_transaction.commit()` -/
  | txnCommit
  /-- `_transaction.abort()` -/
  | txnAbort
  /-- `_db->ReleaseSnapshot(_snapshot)` -/
  | releaseSnapshot
  /-- `change->commit()` for the registered change with this identifier -/
  | changeCommit (c : Nat)
  /-- `change->rollback()` for the registered change with this identifier -/
  | changeRollback (c : Nat)
  /-- `_db->Get(options, columnFamily, key, value)` -/
  | storeGet (cf : Nat) (key : Bytes)
deriving DecidableEq, Repr

/-- The state of one `RocksRecoveryUnit`.  A registered `Change*` is
modelled by an opaque identifier; its `commit()`/`rollback()` calls are
recorded in the event trace.  `_snapshot` holds the captured store
contents (the consistent view the `rocksdb::Snapshot*` pins). -/
structure RocksRecoveryUnit where
  _durable : Bool
  _depth : Int
  _writeBatch : Option (List WriteOp)
  _snapshot : Option Store
  _changes : List Nat
  _deltaCounters : DeltaCounters
  _oplogReadTill : Option Int
deriving DecidableEq, Repr

/-- The shared world the unit acts on: the store and the shared counters. -/
structure World where
  store : Store
  counters : Counters
deriving DecidableEq, Repr

/-- Result of an operation: the new unit state, the new world, and the
externally visible calls it made, in order. -/
structure Eff where
  ru : RocksRecoveryUnit
  world : World
  events : List Event
deriving DecidableEq, Repr

namespace RocksRecoveryUnit

/-- The constructor (lines 50–58): depth 0, no write batch, no snapshot. -/
def mk0 (durable : Bool) : RocksRecoveryUnit :=
  { _durable := durable, _depth := 0, _writeBatch := none, _snapshot := none,
    _changes := [], _deltaCounters := [], _oplogReadTill := none }

/-- `beginUnitOfWork()`: `_depth++`. -/
def beginUnitOfWork (ru : RocksRecoveryUnit) : RocksRecoveryUnit :=
  { ru with _depth := ru._depth + 1 }

/-- `registerChange(change)`: `_changes.push_back(change)`. -/
def registerChange (ru : RocksRecoveryUnit) (c : Nat) : RocksRecoveryUnit :=
  { ru with _changes := ru._changes ++ [c] }

/-- `setOplogReadTill(record)`. -/
def setOplogReadTill (ru : RocksRecoveryUnit) (r : Int) : RocksRecoveryUnit :=
  { ru with _oplogReadTill := some r }

/-- The `writeBatch()` accessor (lines 104–113): lazily creates the
`WriteBatchWithIndex` if absent.  Callers then append puts/deletes to it. -/
def touchWriteBatch (ru : RocksRecoveryUnit) : RocksRecoveryUnit :=
  match ru._writeBatch with
  | none => { ru with _writeBatch := some [] }
  | some _ => ru

/-- A caller performing `writeBatch()->Put(cf, key, value)`. -/
def doPut (ru : RocksRecoveryUnit) (cf : Nat) (k v : Bytes) : RocksRecoveryUnit :=
  let ru := ru.touchWriteBatch
  { ru with _writeBatch := some (ru._writeBatch.getD [] ++ [WriteOp.put cf k v]) }

/-- A caller performing `writeBatch()->Delete(cf, key)`. -/
def doDelete (ru : RocksRecoveryUnit) (cf : Nat) (k : Bytes) : RocksRecoveryUnit :=
  let ru := ru.touchWriteBatch
  { ru with _writeBatch := some (ru._writeBatch.getD [] ++ [WriteOp.del cf k]) }

/-- `_releaseSnapshot()` (lines 119–124): release if held, else nothing. -/
def releaseSnapshotF (ru : RocksRecoveryUnit) : RocksRecoveryUnit × List Event :=
  match ru._snapshot with
  | some _ => ({ ru with _snapshot := none }, [Event.releaseSnapshot])
  | none => (ru, [])

/-- The counter-flush loop of `_commit()` (lines 128–136): for each
`_deltaCounters` entry, `fetch_add` the delta into the shared atomic,
`load` the new total, and `Put` its fixed-width encoding under the
counter's key into the write batch (the two-argument `Put`, which
targets the default column family). -/
def flushStep (p : RocksRecoveryUnit × World) (entry : Bytes × Counter) :
    RocksRecoveryUnit × World :=
  let nv := ctrLookup p.2.counters entry.2._value + entry.2._delta
  let w' := { p.2 with counters := ctrUpdate p.2.counters entry.2._value nv }
  let b' := p.1._writeBatch.getD [] ++ [WriteOp.put defaultCF entry.1 (encodeLL nv)]
  ({ p.1 with _writeBatch := some b' }, w')

def flushCounters (ru : RocksRecoveryUnit) (w : World) : RocksRecoveryUnit × World :=
  ru._deltaCounters.foldl flushStep (ru, w)

/-- The `disableWAL` value computed on line 142
(`writeOptions.disableWAL = !_durable`).  Note: line 143 then passes a
fresh default-constructed `rocksdb::WriteOptions()` to `_db->Write`, so
this computed value is discarded and the write always runs with the
write-ahead log enabled (`disableWAL = false`). -/
def computedDisableWAL (ru : RocksRecoveryUnit) : Bool := !ru._durable

/-- `_commit()` (lines 126–152).  `invariant(_writeBatch)` holds at every
call site; the model is total and treats an absent batch as empty.
After the counter flush, if the batch count is non-zero the batch is
applied with the options actually passed on line 143 — a fresh default
`rocksdb::WriteOptions()`, whose `disableWAL` is `false` — and on success
`_transaction.commit()` runs.  (A failed store write is fatal in the
source; the modelled store's batch application always succeeds.)
Finally `_deltaCounters` is cleared and `_writeBatch` is reset. -/
def commitPhys (ru : RocksRecoveryUnit) (w : World) : Eff :=
  let fw := ru.flushCounters w
  let b := fw.1._writeBatch.getD []
  if b.length ≠ 0 then
    { ru := { fw.1 with _deltaCounters := [], _writeBatch := none },
      world := { fw.2 with store := applyBatch fw.2.store b },
      events := [Event.storeWrite b false, Event.txnCommit] }
  else
    { ru := { fw.1 with _deltaCounters := [], _writeBatch := none },
      world := fw.2, events := [] }

/-- `_abort()` (lines 154–166): roll back registered changes in reverse
registration order and clear them, `_transaction.abort()`, clear
`_deltaCounters`, reset `_writeBatch`, release the snapshot if held. -/
def abortPhys (ru : RocksRecoveryUnit) (w : World) : Eff :=
  let evR := ru._changes.reverse.map Event.changeRollback
  let ru1 := { ru with _changes := [], _deltaCounters := [], _writeBatch := none }
  let rs := ru1.releaseSnapshotF
  { ru := rs.1, world := w, events := evR ++ [Event.txnAbort] ++ rs.2 }

/-- `commitUnitOfWork()` (lines 68–83): at depth > 1 return immediately;
otherwise run `_commit()` if a write batch exists, then run each
registered change's `commit()` in registration order, clear the change
list, and release the snapshot. -/
def commitUnitOfWork (ru : RocksRecoveryUnit) (w : World) : Eff :=
  if ru._depth > 1 then
    { ru := ru, world := w, events := [] }
  else
    let e1 :=
      if ru._writeBatch.isSome then ru.commitPhys w
      else { ru := ru, world := w, events := [] }
    let evC := e1.ru._changes.map Event.changeCommit
    let ru2 := { e1.ru with _changes := [] }
    let rs := ru2.releaseSnapshotF
    { ru := rs.1, world := e1.world, events := e1.events ++ evC ++ rs.2 }

/-- `endUnitOfWork()` (lines 85–90): `_depth--`; at depth 0, `_abort()`. -/
def endUnitOfWork (ru : RocksRecoveryUnit) (w : World) : Eff :=
  let ru1 := { ru with _depth := ru._depth - 1 }
  if ru1._depth = 0 then ru1.abortPhys w
  else { ru := ru1, world := w, events := [] }

/-- Result of `snapshot()`: new unit state, the consistent view served
by the returned `rocksdb::Snapshot*`, and the external calls made. -/
structure SnapOut where
  ru : RocksRecoveryUnit
  snap : Store
  events : List Event
deriving DecidableEq, Repr

/-- `snapshot()` (lines 168–177): if no snapshot is held, call
`_transaction.recordSnapshotId()` and then `_db->GetSnapshot()` (the
captured view is the store's current contents); otherwise return the
snapshot already held, touching nothing. -/
def snapshotAcq (ru : RocksRecoveryUnit) (w : World) : SnapOut :=
  match ru._snapshot with
  | some s => { ru := ru, snap := s, events := [] }
  | none =>
      { ru := { ru with _snapshot := some w.store }, snap := w.store,
        events := [Event.recordSnapshotId, Event.getSnapshot] }

/-- Result of the lookup in the write batch's index performed by the
`WBWIIterator` `Seek` on lines 182–193.  The batch was constructed with
`overwrite_key = true` (line 109), so its index holds, per key, only the
latest operation: `some none` is a delete record on the key,
`some (some v)` a put of `v`, `none` no entry for the key. -/
def wbProbe (b : List WriteOp) (cf : Nat) (k : Bytes) : Option (Option Bytes) :=
  b.foldl
    (fun acc op =>
      match op with
      | .put cf' k' v => if cf' = cf ∧ k' = k then some (some v) else acc
      | .del cf' k' => if cf' = cf ∧ k' = k then some none else acc)
    none

/-- Result of `Get`: `rocksdb::Status::OK` with the value, or
`rocksdb::Status::NotFound`. -/
inductive GetResult
  | ok (v : Bytes)
  | notFound
deriving DecidableEq, Repr

/-- Result of a `Get` call: new unit state, status, external calls. -/
structure GetOut where
  ru : RocksRecoveryUnit
  res : GetResult
  events : List Event
deriving DecidableEq, Repr

/-- The fall-through path of `Get` (lines 195–197): a store lookup with
`options.snapshot = snapshot()`. -/
def getFromStore (ru : RocksRecoveryUnit) (w : World) (cf : Nat) (k : Bytes) : GetOut :=
  let s := ru.snapshotAcq w
  let res := match storeLookup s.snap cf k with
    | some v => GetResult.ok v
    | none => GetResult.notFound
  { ru := s.ru, res := res, events := s.events ++ [Event.storeGet cf k] }

/-- `Get` (lines 179–198): if a write batch exists and its count is
positive, probe its index for the key first; a delete record yields
`NotFound` and a put yields the buffered value, in both cases without
touching the store or the snapshot; otherwise fall through to a store
lookup scoped to `snapshot()`. -/
def get (ru : RocksRecoveryUnit) (w : World) (cf : Nat) (k : Bytes) : GetOut :=
  match ru._writeBatch with
  | some b =>
      if b.length > 0 then
        match wbProbe b cf k with
        | some none => { ru := ru, res := GetResult.notFound, events := [] }
        | some (some v) => { ru := ru, res := GetResult.ok v, events := [] }
        | none => ru.getFromStore w cf k
      else ru.getFromStore w cf k
  | none => ru.getFromStore w cf k

/-- The iterator returned by `NewIterator`: a base iterator over the
snapshot-consistent store view (lines 203–205), wrapped by
`NewIteratorWithBase` in the write batch overlay when the batch has
pending operations (lines 206–208). -/
structure IterModel where
  base : Store
  overlay : Option (List WriteOp)
deriving DecidableEq, Repr

/-- Result of a `NewIterator` call. -/
structure IterOut where
  ru : RocksRecoveryUnit
  iter : IterModel
  events : List Event
deriving DecidableEq, Repr

/-- `NewIterator` (lines 200–210): `invariant(columnFamily !=
_db->DefaultColumnFamily())` — a request on the default column family is
a fatal invariant failure (modelled as `Except.error`); otherwise build
a snapshot-scoped base iterator, overlaid with the write batch when the
batch count is positive. -/
def NewIterator (ru : RocksRecoveryUnit) (w : World) (cf : Nat) :
    Except Unit IterOut :=
  if cf = defaultCF then Except.error ()
  else
    let s := ru.snapshotAcq w
    let overlay :=
      match ru._writeBatch with
      | some b => if b.length > 0 then some b else none
      | none => none
    Except.ok { ru := s.ru, iter := { base := s.snap, overlay := overlay },
                events := s.events }

/-- `incrementCounter` (lines 212–225): nothing on a zero delta; else
create the entry `(counter, delta)` for the key, or add the delta into
the existing entry (which keeps its original counter reference). -/
def incrementCounter (ru : RocksRecoveryUnit) (k : Bytes) (counter : Nat)
    (delta : Int) : RocksRecoveryUnit :=
  if delta = 0 then ru
  else
    match dcFind ru._deltaCounters k with
    | none =>
        { ru with _deltaCounters :=
            ru._deltaCounters ++ [(k, { _value := counter, _delta := delta })] }
    | some _ => { ru with _deltaCounters := dcAdd ru._deltaCounters k delta }

/-- `getDeltaCounter` (lines 227–234): the accumulated delta for the
key, or zero when absent. -/
def getDeltaCounter (ru : RocksRecoveryUnit) (k : Bytes) : Int :=
  match dcFind ru._deltaCounters k with
  | none => 0
  | some c => c._delta

/-- `commitAndRestart()` (lines 97–100): `invariant(_depth == 0)` then
`commitUnitOfWork()`.  A call at non-zero depth is a fatal invariant
failure, modelled as `none`. -/
def commitAndRestart (ru : RocksRecoveryUnit) (w : World) : Option Eff :=
  if ru._depth = 0 then some (ru.commitUnitOfWork w) else none

end RocksRecoveryUnit

/-- One call on the recovery unit's interface, used to quantify over
the unit's reachable transitions.  `destroy` is the destructor (line
60–62), which runs `_abort()` unconditionally. -/
inductive Op
  | beginUOW
  | endUOW
  | commitUOW
  | commitAndRestartOp
  | destroy
  | touchWB
  | putOp (cf : Nat) (k v : Bytes)
  | delOp (cf : Nat) (k : Bytes)
  | snapOp
  | getOp (cf : Nat) (k : Bytes)
  | newIterOp (cf : Nat)
  | incCtrOp (k : Bytes) (counter : Nat) (delta : Int)
  | setOplogOp (r : Int)
deriving DecidableEq, Repr

/-- The one-call transition of the recovery unit.  `none` models a fatal
invariant failure (the process terminates: no post-state exists). -/
def step (op : Op) (ru : RocksRecoveryUnit) (w : World) : Option Eff :=
  match op with
  | .beginUOW => some { ru := ru.beginUnitOfWork, world := w, events := [] }
  | .endUOW => some (ru.endUnitOfWork w)
  | .commitUOW => some (ru.commitUnitOfWork w)
  | .commitAndRestartOp => ru.commitAndRestart w
  | .destroy => some (ru.abortPhys w)
  | .touchWB => some { ru := ru.touchWriteBatch, world := w, events := [] }
  | .putOp cf k v => some { ru := ru.doPut cf k v, world := w, events := [] }
  | .delOp cf k => some { ru := ru.doDelete cf k, world := w, events := [] }
  | .snapOp =>
      let s := ru.snapshotAcq w
      some { ru := s.ru, world := w, events := s.events }
  | .getOp cf k =>
      let g := ru.get w cf k
      some { ru := g.ru, world := w, events := g.events }
  | .newIterOp cf =>
      match ru.NewIterator w cf with
      | .error _ => none
      | .ok o => some { ru := o.ru, world := w, events := o.events }
  | .incCtrOp k c d =>
      some { ru := ru.incrementCounter k c d, world := w, events := [] }
  | .setOplogOp r =>
      some { ru := ru.setOplogReadTill r, world := w, events := [] }

/-- Predicate on events: is this a `_db->Write` call? -/
def isStoreWrite : Event → Bool
  | .storeWrite _ _ => true
  | _ => false

/-- Predicate on events: is this a registered change's callback? -/
def isChangeEvent : Event → Bool
  | .changeCommit _ => true
  | .changeRollback _ => true
  | _ => false

/-- An empty world. -/
def w0 : World := { store := [], counters := [] }

/-- A world where counter key `[120]` ("x") persists the value 10 and
the shared counter with reference 7 also reads 10. -/
def wC3 : World :=
  { store := [((defaultCF, [120]), encodeLL 10)], counters := [(7, 10)] }

/-- A non-durable unit at depth 1 holding one buffered put. -/
def ruC1 : RocksRecoveryUnit :=
  { _durable := false, _depth := 1, _writeBatch := some [WriteOp.put 1 [107] [118]],
    _snapshot := none, _changes := [], _deltaCounters := [], _oplogReadTill := none }

/-- A unit at depth 0 holding one buffered put (the state
`commitAndRestart` operates on). -/
def ruC6 : RocksRecoveryUnit :=
  { _durable := true, _depth := 0, _writeBatch := some [WriteOp.put 1 [1] [2]],
    _snapshot := none, _changes := [], _deltaCounters := [], _oplogReadTill := none }

/-- A unit at depth 1 with a pending counter delta and an (empty) write
batch. -/
def ruW4 : RocksRecoveryUnit :=
  { _durable := true, _depth := 1, _writeBatch := some [],
    _snapshot := none, _deltaCounters := [([120], { _value := 7, _delta := 3 })],
    _changes := [], _oplogReadTill := none }

/-- A unit at depth 1 with three registered changes. -/
def ruCh : RocksRecoveryUnit :=
  { _durable := true, _depth := 1, _writeBatch := none, _snapshot := none,
    _changes := [1, 2, 3], _deltaCounters := [], _oplogReadTill := none }

/-- A unit holding a snapshot over a one-key store. -/
def ruSnap : RocksRecoveryUnit :=
  { _durable := true, _depth := 1, _writeBatch := none,
    _snapshot := some [((2, [9]), [1])], _changes := [], _deltaCounters := [],
    _oplogReadTill := none }

/- ------------------------------------------------------------------ -/
/- Helper lemmas                                                       -/
/- ------------------------------------------------------------------ -/

theorem storeLookup_insert (s : Store) (cf : Nat) (k v : Bytes) :
    storeLookup (storeInsert s cf k v) cf k = some v := by
  induction s with
  | nil => simp [storeInsert, storeLookup]
  | cons h t ih =>
      obtain ⟨k', v'⟩ := h
      by_cases hk : k' = (cf, k)
      · simp [storeInsert, hk, storeLookup]
      · simp [storeInsert, hk, storeLookup, ih]

theorem ctrLookup_update (cs : Counters) (r : Nat) (v : Int) :
    ctrLookup (ctrUpdate cs r v) r = v := by
  induction cs with
  | nil => simp [ctrUpdate, ctrLookup]
  | cons h t ih =>
      obtain ⟨r', v'⟩ := h
      by_cases hr : r' = r
      · simp [ctrUpdate, hr, ctrLookup]
      · simp [ctrUpdate, hr, ctrLookup, ih]

theorem releaseSnapshotF_fields (ru : RocksRecoveryUnit) :
    ru.releaseSnapshotF.1._snapshot = none ∧
    ru.releaseSnapshotF.1._deltaCounters = ru._deltaCounters ∧
    ru.releaseSnapshotF.1._writeBatch = ru._writeBatch ∧
    ru.releaseSnapshotF.1._changes = ru._changes ∧
    ru.releaseSnapshotF.1._depth = ru._depth ∧
    ru.releaseSnapshotF.1._durable = ru._durable := by
  cases h : ru._snapshot <;> simp [RocksRecoveryUnit.releaseSnapshotF, h]

theorem releaseSnapshotF_events (ru : RocksRecoveryUnit) :
    ru.releaseSnapshotF.2 = [] ∨ ru.releaseSnapshotF.2 = [Event.releaseSnapshot] := by
  cases h : ru._snapshot <;> simp [RocksRecoveryUnit.releaseSnapshotF, h]

theorem flushStep_fields (p : RocksRecoveryUnit × World) (e : Bytes × Counter) :
    (RocksRecoveryUnit.flushStep p e).1._changes = p.1._changes ∧
    (RocksRecoveryUnit.flushStep p e).1._depth = p.1._depth ∧
    (RocksRecoveryUnit.flushStep p e).1._snapshot = p.1._snapshot ∧
    (RocksRecoveryUnit.flushStep p e).1._deltaCounters = p.1._deltaCounters ∧
    (RocksRecoveryUnit.flushStep p e).1._durable = p.1._durable ∧
    (RocksRecoveryUnit.flushStep p e).2.store = p.2.store := by
  simp [RocksRecoveryUnit.flushStep]

theorem flushFold_fields (l : DeltaCounters) (p : RocksRecoveryUnit × World) :
    (l.foldl RocksRecoveryUnit.flushStep p).1._changes = p.1._changes ∧
    (l.foldl RocksRecoveryUnit.flushStep p).1._depth = p.1._depth ∧
    (l.foldl RocksRecoveryUnit.flushStep p).1._snapshot = p.1._snapshot ∧
    (l.foldl RocksRecoveryUnit.flushStep p).1._deltaCounters = p.1._deltaCounters ∧
    (l.foldl RocksRecoveryUnit.flushStep p).1._durable = p.1._durable ∧
    (l.foldl RocksRecoveryUnit.flushStep p).2.store = p.2.store := by
  induction l generalizing p with
  | nil => simp
  | cons e t ih =>
      simp only [List.foldl_cons]
      obtain ⟨a1, a2, a3, a4, a5, a6⟩ := flushStep_fields p e
      obtain ⟨h1, h2, h3, h4, h5, h6⟩ := ih (RocksRecoveryUnit.flushStep p e)
      exact ⟨h1.trans a1, h2.trans a2, h3.trans a3, h4.trans a4,
             h5.trans a5, h6.trans a6⟩

theorem flushCounters_fields (ru : RocksRecoveryUnit) (w : World) :
    (ru.flushCounters w).1._changes = ru._changes ∧
    (ru.flushCounters w).1._depth = ru._depth ∧
    (ru.flushCounters w).1._snapshot = ru._snapshot ∧
    (ru.flushCounters w).1._durable = ru._durable ∧
    (ru.flushCounters w).2.store = w.store := by
  obtain ⟨h1, h2, h3, _, h5, h6⟩ := flushFold_fields ru._deltaCounters (ru, w)
  exact ⟨h1, h2, h3, h5, h6⟩

theorem commitPhys_ru_fields (ru : RocksRecoveryUnit) (w : World) :
    (ru.commitPhys w).ru._deltaCounters = [] ∧
    (ru.commitPhys w).ru._writeBatch = none ∧
    (ru.commitPhys w).ru._changes = ru._changes ∧
    (ru.commitPhys w).ru._snapshot = ru._snapshot ∧
    (ru.commitPhys w).ru._depth = ru._depth ∧
    (ru.commitPhys w).ru._durable = ru._durable := by
  obtain ⟨h1, h2, h3, h4, h5⟩ := flushCounters_fields ru w
  by_cases hc : (((ru.flushCounters w).1._writeBatch.getD []).length ≠ 0) <;>
    simp [RocksRecoveryUnit.commitPhys, hc, h1, h2, h3, h4]

theorem commitPhys_events (ru : RocksRecoveryUnit) (w : World) :
    (ru.commitPhys w).events = [] ∨
    ∃ b, (ru.commitPhys w).events = [Event.storeWrite b false, Event.txnCommit] := by
  by_cases hc : (((ru.flushCounters w).1._writeBatch.getD []).length ≠ 0)
  · right
    exact ⟨(ru.flushCounters w).1._writeBatch.getD [],
           by simp [RocksRecoveryUnit.commitPhys, hc]⟩
  · left; simp [RocksRecoveryUnit.commitPhys, hc]

theorem snapshotAcq_fields (ru : RocksRecoveryUnit) (w : World) :
    (ru.snapshotAcq w).ru._deltaCounters = ru._deltaCounters ∧
    (ru.snapshotAcq w).ru._writeBatch = ru._writeBatch ∧
    (ru.snapshotAcq w).ru._changes = ru._changes ∧
    (ru.snapshotAcq w).ru._depth = ru._depth ∧
    (ru.snapshotAcq w).ru._durable = ru._durable := by
  cases h : ru._snapshot <;> simp [RocksRecoveryUnit.snapshotAcq, h]

theorem get_ru_cases (ru : RocksRecoveryUnit) (w : World) (cf : Nat) (k : Bytes) :
    (ru.get w cf k).ru = ru ∨ (ru.get w cf k).ru = (ru.snapshotAcq w).ru := by
  cases hb : ru._writeBatch with
  | none =>
      right; simp [RocksRecoveryUnit.get, hb, RocksRecoveryUnit.getFromStore]
  | some b =>
      by_cases hl : b.length > 0
      · cases hp : RocksRecoveryUnit.wbProbe b cf k with
        | none =>
            right
            simp [RocksRecoveryUnit.get, hb, hl, hp, RocksRecoveryUnit.getFromStore]
        | some o =>
            cases o with
            | none => left; simp [RocksRecoveryUnit.get, hb, hl, hp]
            | some v => left; simp [RocksRecoveryUnit.get, hb, hl, hp]
      · right; simp [RocksRecoveryUnit.get, hb, hl, RocksRecoveryUnit.getFromStore]

theorem dcAdd_ne_nil (l : DeltaCounters) (k : Bytes) (d : Int) (h : l ≠ []) :
    dcAdd l k d ≠ [] := by
  cases l with
  | nil => exact absurd rfl h
  | cons e t =>
      obtain ⟨k', c⟩ := e
      by_cases hk : k' = k <;> simp [dcAdd, hk]

theorem incrementCounter_fields (ru : RocksRecoveryUnit) (k : Bytes) (c : Nat)
    (d : Int) :
    (ru.incrementCounter k c d)._writeBatch = ru._writeBatch ∧
    (ru.incrementCounter k c d)._changes = ru._changes ∧
    (ru.incrementCounter k c d)._snapshot = ru._snapshot ∧
    (ru.incrementCounter k c d)._depth = ru._depth := by
  by_cases hd : d = 0
  · simp [RocksRecoveryUnit.incrementCounter, hd]
  · cases hf : dcFind ru._deltaCounters k <;>
      simp [RocksRecoveryUnit.incrementCounter, hd, hf]

theorem incrementCounter_dc_ne_nil (ru : RocksRecoveryUnit) (k : Bytes) (c : Nat)
    (d : Int) (h : ru._deltaCounters ≠ []) :
    (ru.incrementCounter k c d)._deltaCounters ≠ [] := by
  by_cases hd : d = 0
  · simpa [RocksRecoveryUnit.incrementCounter, hd] using h
  · cases hf : dcFind ru._deltaCounters k with
    | none => simp [RocksRecoveryUnit.incrementCounter, hd, hf]
    | some c' =>
        simpa [RocksRecoveryUnit.incrementCounter, hd, hf] using
          dcAdd_ne_nil ru._deltaCounters k d h

theorem commitUnitOfWork_fields (ru : RocksRecoveryUnit) (w : World)
    (hd : ¬ ru._depth > 1) :
    (ru.commitUnitOfWork w).ru._changes = [] ∧
    (ru.commitUnitOfWork w).ru._snapshot = none ∧
    (ru.commitUnitOfWork w).ru._depth = ru._depth ∧
    (ru._writeBatch.isSome = true →
      (ru.commitUnitOfWork w).ru._deltaCounters = [] ∧
      (ru.commitUnitOfWork w).ru._writeBatch = none) ∧
    (ru._writeBatch = none →
      (ru.commitUnitOfWork w).ru._deltaCounters = ru._deltaCounters ∧
      (ru.commitUnitOfWork w).ru._writeBatch = none) := by
  obtain ⟨p1, p2, p3, p4, p5, p6⟩ := commitPhys_ru_fields ru w
  cases hb : ru._writeBatch with
  | none =>
      cases hs : ru._snapshot <;>
        simp [RocksRecoveryUnit.commitUnitOfWork, hd, hb,
              RocksRecoveryUnit.releaseSnapshotF, hs]
  | some b =>
      have hps : (ru.commitPhys w).ru._snapshot = ru._snapshot := p4
      cases hs : ru._snapshot <;>
        simp [RocksRecoveryUnit.commitUnitOfWork, hd, hb,
              RocksRecoveryUnit.releaseSnapshotF, hps, hs, p1, p2, p5]

/- ------------------------------------------------------------------ -/
/- Claim theorems                                                      -/
/- ------------------------------------------------------------------ -/

/-- C1: the claim states that a physical commit with a non-empty write
batch applies the batch with the write-ahead log disabled when `durable`
is false.  The code computes `writeOptions.disableWAL = !_durable`
(line 142) but then passes a fresh default-constructed
`rocksdb::WriteOptions()` to `_db->Write` (line 143), discarding the
configured options, so the batch of a non-durable unit is applied with
the write-ahead log enabled: for `ruC1` (durable = false, one buffered
put) the write event carries `disableWAL = false` although the computed
flag was `true`. -/
theorem C1_wal_not_disabled :
    ruC1._durable = false ∧ ruC1.computedDisableWAL = true ∧
    (ruC1.commitPhys w0).events =
      [Event.storeWrite [WriteOp.put 1 [107] [118]] false, Event.txnCommit] := by
  decide

/-- C2: on the first read or write that needs a consistent view,
`snapshot()` calls the conflict tracker's `recordSnapshotId` strictly
before `_db->GetSnapshot()`; once a snapshot is held, `snapshot()`
returns that same handle with no external calls, and `Get` and
`NewIterator` in the same unit of work keep the held snapshot and never
acquire a new one. -/
theorem C2_snapshot_order_and_reuse :
    (∀ ru : RocksRecoveryUnit, ∀ w : World, ru._snapshot = none →
      (ru.snapshotAcq w).events = [Event.recordSnapshotId, Event.getSnapshot]) ∧
    (∀ ru : RocksRecoveryUnit, ∀ w : World, ∀ s : Store, ru._snapshot = some s →
      ru.snapshotAcq w = { ru := ru, snap := s, events := [] }) ∧
    (∀ ru : RocksRecoveryUnit, ∀ w : World, ∀ cf : Nat, ∀ k : Bytes, ∀ s : Store,
      ru._snapshot = some s →
      (ru.get w cf k).ru._snapshot = some s ∧
      Event.getSnapshot ∉ (ru.get w cf k).events ∧
      Event.recordSnapshotId ∉ (ru.get w cf k).events) ∧
    (∀ ru : RocksRecoveryUnit, ∀ w : World, ∀ cf : Nat,
      ∀ o : RocksRecoveryUnit.IterOut, ∀ s : Store,
      ru._snapshot = some s → ru.NewIterator w cf = Except.ok o →
      o.ru._snapshot = some s ∧
      Event.getSnapshot ∉ o.events ∧ Event.recordSnapshotId ∉ o.events) := by
  refine ⟨?_, ?_, ?_, ?_⟩
  · intro ru w h; simp [RocksRecoveryUnit.snapshotAcq, h]
  · intro ru w s h; simp [RocksRecoveryUnit.snapshotAcq, h]
  · intro ru w cf k s h
    cases hb : ru._writeBatch with
    | none =>
        simp [RocksRecoveryUnit.get, hb, RocksRecoveryUnit.getFromStore,
              RocksRecoveryUnit.snapshotAcq, h]
    | some b =>
        by_cases hl : b.length > 0
        · cases hp : RocksRecoveryUnit.wbProbe b cf k with
          | none =>
              simp [RocksRecoveryUnit.get, hb, hl, hp,
                    RocksRecoveryUnit.getFromStore, RocksRecoveryUnit.snapshotAcq, h]
          | some o =>
              cases o with
              | none => simp [RocksRecoveryUnit.get, hb, hl, hp, h]
              | some v => simp [RocksRecoveryUnit.get, hb, hl, hp, h]
        · simp [RocksRecoveryUnit.get, hb, hl, RocksRecoveryUnit.getFromStore,
                RocksRecoveryUnit.snapshotAcq, h]
  · intro ru w cf o s h hok
    by_cases hcf : cf = defaultCF
    · simp [RocksRecoveryUnit.NewIterator, hcf] at hok
    · rw [RocksRecoveryUnit.NewIterator, if_neg hcf] at hok
      simp [RocksRecoveryUnit.snapshotAcq, h] at hok
      subst hok
      simp [h]

/-- C10: `NewIterator` enforces `invariant(columnFamily !=
_db->DefaultColumnFamily())`: a request on the default column family is
a fatal invariant failure instead of returning an iterator, while any
other column family yields an iterator. -/
theorem C10_default_cf_invariant :
    (∀ ru : RocksRecoveryUnit, ∀ w : World,
      ru.NewIterator w defaultCF = Except.error ()) ∧
    (∀ ru : RocksRecoveryUnit, ∀ w : World, ∀ cf : Nat, cf ≠ defaultCF →
      ∃ o, ru.NewIterator w cf = Except.ok o) := by
  constructor
  · intro ru w; simp [RocksRecoveryUnit.NewIterator]
  · intro ru w cf h
    rw [RocksRecoveryUnit.NewIterator, if_neg h]
    exact ⟨_, rfl⟩

/-- C2 witness: the theorem applied at concrete states — a fresh unit
acquiring its first snapshot, and `ruSnap` (which holds a snapshot)
reusing it through `snapshot()`, `Get` and `NewIterator`. -/
theorem C2_snapshot_order_and_reuse_witness :
    ((RocksRecoveryUnit.mk0 true).snapshotAcq w0).events =
      [Event.recordSnapshotId, Event.getSnapshot] ∧
    ruSnap.snapshotAcq w0 =
      { ru := ruSnap, snap := [((2, [9]), [1])], events := [] } ∧
    (ruSnap.get w0 2 [9]).ru._snapshot = some [((2, [9]), [1])] ∧
    ({ ru := ruSnap, iter := { base := [((2, [9]), [1])], overlay := none },
       events := [] } : RocksRecoveryUnit.IterOut).ru._snapshot =
      some [((2, [9]), [1])] := by
  refine ⟨C2_snapshot_order_and_reuse.1 (RocksRecoveryUnit.mk0 true) w0 rfl,
          C2_snapshot_order_and_reuse.2.1 ruSnap w0 _ rfl,
          (C2_snapshot_order_and_reuse.2.2.1 ruSnap w0 2 [9] _ rfl).1,
          (C2_snapshot_order_and_reuse.2.2.2 ruSnap w0 1 _ _ rfl rfl).1⟩

/-- C10 witness: the theorem applied at a concrete non-default column
family. -/
theorem C10_default_cf_invariant_witness :
    ∃ o, (RocksRecoveryUnit.mk0 true).NewIterator w0 1 = Except.ok o :=
  C10_default_cf_invariant.2 (RocksRecoveryUnit.mk0 true) w0 1 (by decide)

theorem storeLookup_applyBatch_append_put (s : Store) (b : List WriteOp)
    (cf : Nat) (k v : Bytes) :
    storeLookup (applyBatch s (b ++ [WriteOp.put cf k v])) cf k = some v := by
  unfold applyBatch
  rw [List.foldl_append]
  simp [applyOp, storeLookup_insert]

/-- C3 counterexample: a unit of work that performs only the two
`incrementCounter` calls never creates a write batch, so its
`commitUnitOfWork` at depth 1 skips `_commit()` entirely
(`if (_writeBatch)` on line 73 fails): `getDeltaCounter` does return 5
before the commit, but after the commit the persisted value under the
counter's key is still the pre-transaction encoding of 10, not 10 + 5,
and the shared in-memory counter still reads 10. -/
theorem C3_counterexample :
    ((((RocksRecoveryUnit.mk0 true).beginUnitOfWork).incrementCounter [120] 7
          3).incrementCounter [120] 7 2).getDeltaCounter [120] = 5 ∧
    ((((RocksRecoveryUnit.mk0 true).beginUnitOfWork).incrementCounter [120] 7
          3).incrementCounter [120] 7 2)._depth = 1 ∧
    storeLookup
      (((((RocksRecoveryUnit.mk0 true).beginUnitOfWork).incrementCounter [120] 7
          3).incrementCounter [120] 7 2).commitUnitOfWork wC3).world.store
      defaultCF [120] = some (encodeLL 10) ∧
    ctrLookup
      (((((RocksRecoveryUnit.mk0 true).beginUnitOfWork).incrementCounter [120] 7
          3).incrementCounter [120] 7 2).commitUnitOfWork wC3).world.counters
      7 = 10 ∧
    encodeLL 10 ≠ encodeLL (10 + 5) := by
  decide

/-- C3 amended: for every unit of work at depth 1 whose write batch
exists (the unit performed at least one buffered write, so line 73 runs
`_commit()`), with no prior counter deltas and with the shared counter
reading `c` (the persisted value under the counter's key being the
encoding of the same `c`): after `incrementCounter` by +3 and then +2,
`getDeltaCounter` returns 5, and after the commit the persisted value
under the counter's key is the encoding of `c + 5` and the shared
in-memory counter reads `c + 5`. -/
theorem C3_amended (ru : RocksRecoveryUnit) (w : World) (b : List WriteOp)
    (r : Nat) (c : Int)
    (hd : ru._depth = 1) (hb : ru._writeBatch = some b)
    (hdc : ru._deltaCounters = [])
    (hc : ctrLookup w.counters r = c)
    (hs : storeLookup w.store defaultCF [120] = some (encodeLL c)) :
    ((ru.incrementCounter [120] r 3).incrementCounter [120] r 2).getDeltaCounter
      [120] = 5 ∧
    storeLookup
      ((((ru.incrementCounter [120] r 3).incrementCounter [120] r
          2).commitUnitOfWork w).world.store) defaultCF [120] =
      some (encodeLL (c + 5)) ∧
    ctrLookup
      ((((ru.incrementCounter [120] r 3).incrementCounter [120] r
          2).commitUnitOfWork w).world.counters) r = c + 5 := by
  have h1 : (ru.incrementCounter [120] r 3).incrementCounter [120] r 2
      = { ru with _deltaCounters := [([120], { _value := r, _delta := 5 })] } := by
    simp [RocksRecoveryUnit.incrementCounter, hdc, dcFind, dcAdd]
  rw [h1]
  have hwS :
      (({ ru with _deltaCounters := [([120], { _value := r, _delta := 5 })] } :
          RocksRecoveryUnit).commitUnitOfWork w).world.store
        = applyBatch w.store (b ++ [WriteOp.put defaultCF [120] (encodeLL (c + 5))]) := by
    simp [RocksRecoveryUnit.commitUnitOfWork, hd, hb, RocksRecoveryUnit.commitPhys,
          RocksRecoveryUnit.flushCounters, RocksRecoveryUnit.flushStep, hc]
  have hwC :
      (({ ru with _deltaCounters := [([120], { _value := r, _delta := 5 })] } :
          RocksRecoveryUnit).commitUnitOfWork w).world.counters
        = ctrUpdate w.counters r (c + 5) := by
    simp [RocksRecoveryUnit.commitUnitOfWork, hd, hb, RocksRecoveryUnit.commitPhys,
          RocksRecoveryUnit.flushCounters, RocksRecoveryUnit.flushStep, hc]
  refine ⟨by simp [RocksRecoveryUnit.getDeltaCounter, dcFind], ?_, ?_⟩
  · rw [hwS]
    exact storeLookup_applyBatch_append_put w.store b defaultCF [120] (encodeLL (c + 5))
  · rw [hwC]
    exact ctrLookup_update w.counters r (c + 5)

/-- C3 witness: the amended theorem applied to `ruC1` (depth 1, one
buffered put, no prior deltas) in the world `wC3` where both the
persisted and the in-memory counter value are 10. -/
theorem C3_amended_witness :
    ((ruC1.incrementCounter [120] 7 3).incrementCounter [120] 7 2).getDeltaCounter
      [120] = 5 ∧
    storeLookup
      ((((ruC1.incrementCounter [120] 7 3).incrementCounter [120] 7
          2).commitUnitOfWork wC3).world.store) defaultCF [120] =
      some (encodeLL (10 + 5)) ∧
    ctrLookup
      ((((ruC1.incrementCounter [120] 7 3).incrementCounter [120] 7
          2).commitUnitOfWork wC3).world.counters) 7 = 10 + 5 :=
  C3_amended ruC1 wC3 [WriteOp.put 1 [107] [118]] 7 10 rfl rfl rfl (by decide)
    (by decide)

theorem abortPhys_fields (ru : RocksRecoveryUnit) (w : World) :
    (ru.abortPhys w).ru._deltaCounters = [] ∧
    (ru.abortPhys w).ru._writeBatch = none ∧
    (ru.abortPhys w).ru._changes = [] ∧
    (ru.abortPhys w).ru._snapshot = none ∧
    (ru.abortPhys w).ru._depth = ru._depth ∧
    (ru.abortPhys w).world = w := by
  cases hs : ru._snapshot <;>
    simp [RocksRecoveryUnit.abortPhys, RocksRecoveryUnit.releaseSnapshotF, hs]

theorem touchWriteBatch_fields (ru : RocksRecoveryUnit) :
    (ru.touchWriteBatch)._deltaCounters = ru._deltaCounters ∧
    (ru.touchWriteBatch)._writeBatch ≠ none := by
  cases h : ru._writeBatch <;> simp [RocksRecoveryUnit.touchWriteBatch, h]

theorem doPut_fields (ru : RocksRecoveryUnit) (cf : Nat) (k v : Bytes) :
    (ru.doPut cf k v)._deltaCounters = ru._deltaCounters ∧
    (ru.doPut cf k v)._writeBatch ≠ none := by
  cases h : ru._writeBatch <;>
    simp [RocksRecoveryUnit.doPut, RocksRecoveryUnit.touchWriteBatch, h]

theorem doDelete_fields (ru : RocksRecoveryUnit) (cf : Nat) (k : Bytes) :
    (ru.doDelete cf k)._deltaCounters = ru._deltaCounters ∧
    (ru.doDelete cf k)._writeBatch ≠ none := by
  cases h : ru._writeBatch <;>
    simp [RocksRecoveryUnit.doDelete, RocksRecoveryUnit.touchWriteBatch, h]

theorem get_frame (ru : RocksRecoveryUnit) (w : World) (cf : Nat) (k : Bytes) :
    (ru.get w cf k).ru._deltaCounters = ru._deltaCounters ∧
    (ru.get w cf k).ru._writeBatch = ru._writeBatch := by
  rcases get_ru_cases ru w cf k with h | h <;> rw [h]
  · exact ⟨rfl, rfl⟩
  · obtain ⟨a, b2, _, _, _⟩ := snapshotAcq_fields ru w
    exact ⟨a, b2⟩

theorem endUnitOfWork_cases (ru : RocksRecoveryUnit) (w : World) :
    ru.endUnitOfWork w =
      ({ ru with _depth := ru._depth - 1 } : RocksRecoveryUnit).abortPhys w ∨
    ((ru.endUnitOfWork w).ru._deltaCounters = ru._deltaCounters ∧
     (ru.endUnitOfWork w).ru._writeBatch = ru._writeBatch) := by
  by_cases hz : ru._depth - 1 = 0
  · left; simp [RocksRecoveryUnit.endUnitOfWork, hz]
  · right; simp [RocksRecoveryUnit.endUnitOfWork, hz]

theorem commitUnitOfWork_dc_wb (ru : RocksRecoveryUnit) (w : World) :
    (((ru.commitUnitOfWork w).ru._deltaCounters = ru._deltaCounters) ∧
     ((ru.commitUnitOfWork w).ru._writeBatch = ru._writeBatch)) ∨
    (((ru.commitUnitOfWork w).ru._deltaCounters = []) ∧
     ((ru.commitUnitOfWork w).ru._writeBatch = none)) := by
  by_cases hd : ru._depth > 1
  · left; constructor <;> simp [RocksRecoveryUnit.commitUnitOfWork, hd]
  · obtain ⟨_, _, _, h4, h5⟩ := commitUnitOfWork_fields ru w hd
    cases hb : ru._writeBatch with
    | none =>
        obtain ⟨a, b2⟩ := h5 hb
        left; exact ⟨a, b2⟩
    | some x =>
        right; exact h4 (by simp [hb])

theorem frame_clear_implications (ru ru' : RocksRecoveryUnit)
    (hdc : ru'._deltaCounters = ru._deltaCounters)
    (hwb : ru'._writeBatch = ru._writeBatch) :
    (ru'._deltaCounters = [] → ru._deltaCounters ≠ [] → ru'._writeBatch = none) ∧
    (ru'._writeBatch = none → ru._writeBatch ≠ none → ru'._deltaCounters = []) := by
  constructor
  · intro h1 h2; exact absurd (hdc.symm.trans h1) h2
  · intro h1 h2; exact absurd (hwb.symm.trans h1) h2

theorem cleared_clear_implications (ru ru' : RocksRecoveryUnit)
    (hdc : ru'._deltaCounters = []) (hwb : ru'._writeBatch = none) :
    (ru'._deltaCounters = [] → ru._deltaCounters ≠ [] → ru'._writeBatch = none) ∧
    (ru'._writeBatch = none → ru._writeBatch ≠ none → ru'._deltaCounters = []) :=
  ⟨fun _ _ => hwb, fun _ _ => hdc⟩

/-- C4 counterexample: a terminal transition after which the two
buffers are not both empty: a counter-only unit of work at depth 1
never creates its write batch, so its `commitUnitOfWork` — the
terminal commit transition — skips `_commit()` (line 73) and completes
with the counter delta map still non-empty: the delta map is not
cleared at that physical commit. -/
theorem C4_counterexample :
    (((RocksRecoveryUnit.mk0 true).beginUnitOfWork).incrementCounter [120] 7
        3)._depth = 1 ∧
    ((((RocksRecoveryUnit.mk0 true).beginUnitOfWork).incrementCounter [120] 7
        3).commitUnitOfWork w0).ru._deltaCounters
      = [([120], { _value := 7, _delta := 3 })] ∧
    ([([120], { _value := 7, _delta := 3 })] : DeltaCounters) ≠ [] := by
  decide

/-- C4 amended: the counter delta map and the write buffer are cleared
together at every run of `_commit` (lines 150–151) — that is, at every
terminal commit of a unit whose write buffer exists — and at every
physical abort (`_abort`, lines 162–163); and no interface call of the
recovery unit ever empties a non-empty delta map while leaving a write
batch in place, or resets an existing write batch while leaving delta
entries behind.  (A terminal commit of a unit with no write buffer
skips `_commit()` and leaves its — possibly non-empty — delta map in
place.) -/
theorem C4_cleared_together :
    (∀ ru : RocksRecoveryUnit, ∀ w : World,
      (ru.commitPhys w).ru._deltaCounters = [] ∧
      (ru.commitPhys w).ru._writeBatch = none) ∧
    (∀ ru : RocksRecoveryUnit, ∀ w : World,
      (ru.abortPhys w).ru._deltaCounters = [] ∧
      (ru.abortPhys w).ru._writeBatch = none) ∧
    (∀ ru : RocksRecoveryUnit, ∀ w : World, ¬ ru._depth > 1 →
      ru._writeBatch.isSome = true →
      (ru.commitUnitOfWork w).ru._deltaCounters = [] ∧
      (ru.commitUnitOfWork w).ru._writeBatch = none) ∧
    (∀ op : Op, ∀ ru : RocksRecoveryUnit, ∀ w : World, ∀ e : Eff,
      step op ru w = some e →
      (e.ru._deltaCounters = [] → ru._deltaCounters ≠ [] →
        e.ru._writeBatch = none) ∧
      (e.ru._writeBatch = none → ru._writeBatch ≠ none →
        e.ru._deltaCounters = [])) := by
  refine ⟨?_, ?_, ?_, ?_⟩
  · intro ru w
    obtain ⟨h1, h2, _⟩ := commitPhys_ru_fields ru w
    exact ⟨h1, h2⟩
  · intro ru w
    obtain ⟨h1, h2, _⟩ := abortPhys_fields ru w
    exact ⟨h1, h2⟩
  · intro ru w hd hb
    obtain ⟨_, _, _, h4, _⟩ := commitUnitOfWork_fields ru w hd
    exact h4 hb
  · intro op ru w e h
    cases op with
    | beginUOW =>
        simp only [step, Option.some.injEq] at h
        subst h
        exact frame_clear_implications ru _ rfl rfl
    | endUOW =>
        simp only [step, Option.some.injEq] at h
        subst h
        rcases endUnitOfWork_cases ru w with hcase | ⟨a, b2⟩
        · rw [hcase]
          obtain ⟨h1, h2, _⟩ :=
            abortPhys_fields ({ ru with _depth := ru._depth - 1 }) w
          exact cleared_clear_implications ru _ h1 h2
        · exact frame_clear_implications ru _ a b2
    | commitUOW =>
        simp only [step, Option.some.injEq] at h
        subst h
        rcases commitUnitOfWork_dc_wb ru w with ⟨a, b2⟩ | ⟨a, b2⟩
        · exact frame_clear_implications ru _ a b2
        · exact cleared_clear_implications ru _ a b2
    | commitAndRestartOp =>
        by_cases hz : ru._depth = 0
        · simp only [step, RocksRecoveryUnit.commitAndRestart, hz, if_true,
                     Option.some.injEq] at h
          subst h
          rcases commitUnitOfWork_dc_wb ru w with ⟨a, b2⟩ | ⟨a, b2⟩
          · exact frame_clear_implications ru _ a b2
          · exact cleared_clear_implications ru _ a b2
        · simp [step, RocksRecoveryUnit.commitAndRestart, hz] at h
    | destroy =>
        simp only [step, Option.some.injEq] at h
        subst h
        obtain ⟨h1, h2, _⟩ := abortPhys_fields ru w
        exact cleared_clear_implications ru _ h1 h2
    | touchWB =>
        simp only [step, Option.some.injEq] at h
        subst h
        obtain ⟨h1, h2⟩ := touchWriteBatch_fields ru
        constructor
        · intro a b2; exact absurd (h1.symm.trans a) b2
        · intro a _; exact absurd a h2
    | putOp cf k v =>
        simp only [step, Option.some.injEq] at h
        subst h
        obtain ⟨h1, h2⟩ := doPut_fields ru cf k v
        constructor
        · intro a b2; exact absurd (h1.symm.trans a) b2
        · intro a _; exact absurd a h2
    | delOp cf k =>
        simp only [step, Option.some.injEq] at h
        subst h
        obtain ⟨h1, h2⟩ := doDelete_fields ru cf k
        constructor
        · intro a b2; exact absurd (h1.symm.trans a) b2
        · intro a _; exact absurd a h2
    | snapOp =>
        simp only [step, Option.some.injEq] at h
        subst h
        obtain ⟨a, b2, _, _, _⟩ := snapshotAcq_fields ru w
        exact frame_clear_implications ru _ a b2
    | getOp cf k =>
        simp only [step, Option.some.injEq] at h
        subst h
        obtain ⟨a, b2⟩ := get_frame ru w cf k
        exact frame_clear_implications ru _ a b2
    | newIterOp cf =>
        cases hni : ru.NewIterator w cf with
        | error u => simp [step, hni] at h
        | ok o =>
            simp only [step, hni, Option.some.injEq] at h
            subst h
            have ho : o.ru = (ru.snapshotAcq w).ru := by
              by_cases hcf : cf = defaultCF
              · simp [RocksRecoveryUnit.NewIterator, hcf] at hni
              · rw [RocksRecoveryUnit.NewIterator, if_neg hcf] at hni
                simp only [Except.ok.injEq] at hni
                rw [← hni]
            obtain ⟨a, b2, _, _, _⟩ := snapshotAcq_fields ru w
            have a' : o.ru._deltaCounters = ru._deltaCounters := by rw [ho]; exact a
            have b' : o.ru._writeBatch = ru._writeBatch := by rw [ho]; exact b2
            exact frame_clear_implications ru o.ru a' b'
    | incCtrOp k cnum d =>
        simp only [step, Option.some.injEq] at h
        subst h
        obtain ⟨hwb, _, _, _⟩ := incrementCounter_fields ru k cnum d
        constructor
        · intro a b2
          exact absurd a (incrementCounter_dc_ne_nil ru k cnum d b2)
        · intro a b2
          exact absurd (hwb.symm.trans a) b2
    | setOplogOp r =>
        simp only [step, Option.some.injEq] at h
        subst h
        exact frame_clear_implications ru _ rfl rfl

/-- C4 witness: the amended theorem applied to `ruW4` (non-empty delta
map, existing write batch, depth 1): its terminal commit and the step
implications at its destructor, each hypothesis discharged at that
concrete state. -/
theorem C4_cleared_together_witness :
    ((ruW4.commitUnitOfWork w0).ru._deltaCounters = [] ∧
     (ruW4.commitUnitOfWork w0).ru._writeBatch = none) ∧
    (ruW4.abortPhys w0).ru._writeBatch = none ∧
    (ruW4.abortPhys w0).ru._deltaCounters = [] := by
  have h := C4_cleared_together.2.2.2 Op.destroy ruW4 w0 (ruW4.abortPhys w0) rfl
  exact ⟨C4_cleared_together.2.2.1 ruW4 w0 (by decide) (by decide),
         h.1 (by decide) (by decide), h.2 (by decide) (by decide)⟩

/-- C5 counterexample: `_transaction.commit()` runs only inside the
`Count() != 0` block (lines 138–149): a unit whose write batch exists
but is empty (the lazy `writeBatch()` accessor was called without any
write being appended) undergoes the physical commit path — the
`if (_writeBatch)` on line 73 succeeds and `_commit()` runs — yet the
conflict tracker's commit is invoked zero times, not exactly once. -/
theorem C5_counterexample :
    (((RocksRecoveryUnit.mk0 true).beginUnitOfWork).touchWriteBatch)._writeBatch
      = some [] ∧
    ((((RocksRecoveryUnit.mk0 true).beginUnitOfWork).touchWriteBatch).commitUnitOfWork
        w0).events.count Event.txnCommit = 0 := by
  decide

/-- C5 amended: during a physical commit (`_commit`, entered with an
existing write batch), if the batch is non-empty after the counter
flush then the external calls of `_commit` are exactly the store write
followed immediately by one conflict-tracker commit — so the tracker's
commit is invoked exactly once, and only after the atomic batch write
succeeded; if the flushed batch is empty, no store write and no tracker
commit happens. -/
theorem C5_amended (ru : RocksRecoveryUnit) (w : World) (b : List WriteOp)
    (hb : ru._writeBatch = some b) :
    ((ru.flushCounters w).1._writeBatch.getD [] ≠ [] →
      (ru.commitPhys w).events =
        [Event.storeWrite ((ru.flushCounters w).1._writeBatch.getD []) false,
         Event.txnCommit] ∧
      (ru.commitPhys w).events.count Event.txnCommit = 1) ∧
    ((ru.flushCounters w).1._writeBatch.getD [] = [] →
      (ru.commitPhys w).events = []) := by
  constructor
  · intro hne
    have hc : ((ru.flushCounters w).1._writeBatch.getD []).length ≠ 0 := by
      simpa [List.length_eq_zero] using hne
    have he : (ru.commitPhys w).events =
        [Event.storeWrite ((ru.flushCounters w).1._writeBatch.getD []) false,
         Event.txnCommit] := by
      simp [RocksRecoveryUnit.commitPhys, hc]
    refine ⟨he, ?_⟩
    rw [he]
    simp [List.count_cons]
  · intro hz
    have hc : ¬ ((ru.flushCounters w).1._writeBatch.getD []).length ≠ 0 := by
      simp [hz]
    simp [RocksRecoveryUnit.commitPhys, hc]

/-- C5 witness: the amended theorem applied to `ruC1`, whose flushed
batch holds one put. -/
theorem C5_amended_witness :
    (ruC1.commitPhys w0).events.count Event.txnCommit = 1 :=
  ((C5_amended ruC1 w0 [WriteOp.put 1 [107] [118]] rfl).1 (by decide)).2

/-- C6 counterexample: the guard on line 69 is `_depth > 1`, not
`_depth == 1`: `commitUnitOfWork` at depth 0 — the state that
`commitAndRestart` (lines 97–100) drives it from — also performs the
physical write, so it is not the case that only `commitUnitOfWork` at
depth 1 performs the physical commit. -/
theorem C6_counterexample :
    ruC6._depth = 0 ∧
    ruC6.commitAndRestart w0 = some (ruC6.commitUnitOfWork w0) ∧
    (ruC6.commitUnitOfWork w0).events.any isStoreWrite = true := by
  decide

/-- C6 amended: for every nesting depth n > 1, `commitUnitOfWork` is a
complete no-op — unchanged unit state (buffered writes, counter deltas,
registered changes and snapshot included), unchanged world, no external
calls; the physical write is performed only when the depth is at most 1
(depth 1 being the outermost commit of an open unit of work, depth 0
arising only through `commitAndRestart`). -/
theorem C6_amended :
    (∀ ru : RocksRecoveryUnit, ∀ w : World, ru._depth > 1 →
      ru.commitUnitOfWork w = { ru := ru, world := w, events := [] }) ∧
    (∀ ru : RocksRecoveryUnit, ∀ w : World,
      (ru.commitUnitOfWork w).events.any isStoreWrite = true →
      ru._depth ≤ 1) := by
  constructor
  · intro ru w hd; simp [RocksRecoveryUnit.commitUnitOfWork, hd]
  · intro ru w h
    by_contra hd
    rw [not_le] at hd
    rw [RocksRecoveryUnit.commitUnitOfWork, if_pos hd] at h
    simp at h

/-- C6 witness: the amended theorem applied at depth 2 (no-op) and to
the depth-1 commit of `ruC1` (which does write). -/
theorem C6_amended_witness :
    ({ ruC1 with _depth := 2 } : RocksRecoveryUnit).commitUnitOfWork w0 =
      { ru := { ruC1 with _depth := 2 }, world := w0, events := [] } ∧
    ruC1._depth ≤ 1 :=
  ⟨C6_amended.1 ({ ruC1 with _depth := 2 }) w0 (by decide),
   C6_amended.2 ruC1 w0 (by decide)⟩

theorem commitPhys_changes_filter (ru : RocksRecoveryUnit) (w : World) :
    ((ru.commitPhys w).events).filter isChangeEvent = [] := by
  rcases commitPhys_events ru w with h | ⟨b, h⟩ <;> rw [h] <;> simp [isChangeEvent]

theorem filter_isChange_map_commit (l : List Nat) :
    (l.map Event.changeCommit).filter isChangeEvent = l.map Event.changeCommit := by
  induction l with
  | nil => rfl
  | cons a t ih => simp [isChangeEvent, ih]

theorem filter_isChange_map_rollback (l : List Nat) :
    (l.map Event.changeRollback).filter isChangeEvent =
      l.map Event.changeRollback := by
  induction l with
  | nil => rfl
  | cons a t ih => simp [isChangeEvent, ih]

theorem releaseSnapshotF_filter_changes (ru : RocksRecoveryUnit) :
    (ru.releaseSnapshotF.2).filter isChangeEvent = [] := by
  rcases releaseSnapshotF_events ru with h | h <;> rw [h] <;> simp [isChangeEvent]

theorem commitUnitOfWork_filter_changes (ru : RocksRecoveryUnit) (w : World)
    (hd : ¬ ru._depth > 1) :
    (ru.commitUnitOfWork w).events.filter isChangeEvent =
      ru._changes.map Event.changeCommit := by
  cases hb : ru._writeBatch with
  | none =>
      simp [RocksRecoveryUnit.commitUnitOfWork, hd, hb, List.filter_append,
            filter_isChange_map_commit, releaseSnapshotF_filter_changes]
  | some b =>
      have hch : (ru.commitPhys w).ru._changes = ru._changes :=
        (commitPhys_ru_fields ru w).2.2.1
      have hcf := commitPhys_changes_filter ru w
      simp [RocksRecoveryUnit.commitUnitOfWork, hd, hb, hch, hcf,
            List.filter_append, filter_isChange_map_commit,
            releaseSnapshotF_filter_changes]

theorem abortPhys_filter_changes (ru : RocksRecoveryUnit) (w : World) :
    (ru.abortPhys w).events.filter isChangeEvent =
      (ru._changes.reverse).map Event.changeRollback := by
  simp [RocksRecoveryUnit.abortPhys, List.filter_append,
        filter_isChange_map_rollback, releaseSnapshotF_filter_changes,
        isChangeEvent]

/-- C7: during a terminal commit (`commitUnitOfWork` at depth ≤ 1),
the registered changes' `commit()` callbacks run in exact registration
order (lines 77–79), and during a physical abort the `rollback()`
callbacks run in exact reverse registration order (lines 155–158); in
both cases the change list is cleared afterwards. -/
theorem C7_change_order :
    (∀ ru : RocksRecoveryUnit, ∀ w : World, ¬ ru._depth > 1 →
      ((ru.commitUnitOfWork w).events.filter isChangeEvent =
        ru._changes.map Event.changeCommit) ∧
      (ru.commitUnitOfWork w).ru._changes = []) ∧
    (∀ ru : RocksRecoveryUnit, ∀ w : World,
      ((ru.abortPhys w).events.filter isChangeEvent =
        (ru._changes.reverse).map Event.changeRollback) ∧
      (ru.abortPhys w).ru._changes = []) := by
  constructor
  · intro ru w hd
    obtain ⟨hch, _, _, _, _⟩ := commitUnitOfWork_fields ru w hd
    exact ⟨commitUnitOfWork_filter_changes ru w hd, hch⟩
  · intro ru w
    obtain ⟨_, _, hch, _, _, _⟩ := abortPhys_fields ru w
    exact ⟨abortPhys_filter_changes ru w, hch⟩

/-- C7 witness: the theorem applied to `ruCh` (changes 1, 2, 3 at
depth 1): commit callbacks run as 1, 2, 3 and rollback callbacks as
3, 2, 1. -/
theorem C7_change_order_witness :
    ((ruCh.commitUnitOfWork w0).events.filter isChangeEvent =
      [Event.changeCommit 1, Event.changeCommit 2, Event.changeCommit 3]) ∧
    ((ruCh.abortPhys w0).events.filter isChangeEvent =
      [Event.changeRollback 3, Event.changeRollback 2, Event.changeRollback 1]) :=
  ⟨(C7_change_order.1 ruCh w0 (by decide)).1, (C7_change_order.2 ruCh w0).1⟩

/-- C8: the point-lookup protocol of `Get` (lines 179–198): when a
write batch exists and is non-empty, the batch index is probed first —
a delete record for the key returns NotFound and a put returns the
buffered value, in both cases with no store access, no snapshot
acquisition and no state change; in every other case the lookup is
served by a store get scoped to `snapshot()`, which acquires the
snapshot if not yet held. -/
theorem C8_read_protocol :
    (∀ ru : RocksRecoveryUnit, ∀ w : World, ∀ cf : Nat, ∀ k : Bytes,
      ∀ b : List WriteOp,
      ru._writeBatch = some b → b ≠ [] →
      RocksRecoveryUnit.wbProbe b cf k = some none →
      ru.get w cf k =
        { ru := ru, res := RocksRecoveryUnit.GetResult.notFound, events := [] }) ∧
    (∀ ru : RocksRecoveryUnit, ∀ w : World, ∀ cf : Nat, ∀ k : Bytes,
      ∀ b : List WriteOp, ∀ v : Bytes,
      ru._writeBatch = some b → b ≠ [] →
      RocksRecoveryUnit.wbProbe b cf k = some (some v) →
      ru.get w cf k =
        { ru := ru, res := RocksRecoveryUnit.GetResult.ok v, events := [] }) ∧
    (∀ ru : RocksRecoveryUnit, ∀ w : World, ∀ cf : Nat, ∀ k : Bytes,
      ∀ b : List WriteOp,
      ru._writeBatch = some b → b ≠ [] →
      RocksRecoveryUnit.wbProbe b cf k = none →
      ru.get w cf k = ru.getFromStore w cf k) ∧
    (∀ ru : RocksRecoveryUnit, ∀ w : World, ∀ cf : Nat, ∀ k : Bytes,
      (ru._writeBatch = none ∨ ru._writeBatch = some []) →
      ru.get w cf k = ru.getFromStore w cf k) ∧
    (∀ ru : RocksRecoveryUnit, ∀ w : World, ∀ cf : Nat, ∀ k : Bytes,
      ru.getFromStore w cf k =
        { ru := (ru.snapshotAcq w).ru,
          res :=
            match storeLookup (ru.snapshotAcq w).snap cf k with
            | some v => RocksRecoveryUnit.GetResult.ok v
            | none => RocksRecoveryUnit.GetResult.notFound,
          events := (ru.snapshotAcq w).events ++ [Event.storeGet cf k] }) := by
  refine ⟨?_, ?_, ?_, ?_, ?_⟩
  · intro ru w cf k b hb hne hp
    have hl : b.length > 0 := List.length_pos.mpr hne
    simp [RocksRecoveryUnit.get, hb, hl, hp]
  · intro ru w cf k b v hb hne hp
    have hl : b.length > 0 := List.length_pos.mpr hne
    simp [RocksRecoveryUnit.get, hb, hl, hp]
  · intro ru w cf k b hb hne hp
    have hl : b.length > 0 := List.length_pos.mpr hne
    simp [RocksRecoveryUnit.get, hb, hl, hp]
  · intro ru w cf k hb
    rcases hb with hb | hb <;> simp [RocksRecoveryUnit.get, hb]
  · intro ru w cf k
    rfl

/-- C8 witness: the protocol applied at concrete states — a buffered
put is read back, a buffered delete hides the stored value, and lookups
with no batch entry fall through to the snapshot-scoped store get. -/
theorem C8_read_protocol_witness :
    ((RocksRecoveryUnit.mk0 true).doPut 2 [9] [5]).get
        { store := [((2, [9]), [1, 2])], counters := [] } 2 [9] =
      { ru := (RocksRecoveryUnit.mk0 true).doPut 2 [9] [5],
        res := RocksRecoveryUnit.GetResult.ok [5], events := [] } ∧
    (((RocksRecoveryUnit.mk0 true).doPut 2 [9] [5]).doDelete 2 [9]).get
        { store := [((2, [9]), [1, 2])], counters := [] } 2 [9] =
      { ru := ((RocksRecoveryUnit.mk0 true).doPut 2 [9] [5]).doDelete 2 [9],
        res := RocksRecoveryUnit.GetResult.notFound, events := [] } ∧
    ((RocksRecoveryUnit.mk0 true).doPut 2 [9] [5]).get
        { store := [((2, [9]), [1, 2])], counters := [] } 2 [8] =
      ((RocksRecoveryUnit.mk0 true).doPut 2 [9] [5]).getFromStore
        { store := [((2, [9]), [1, 2])], counters := [] } 2 [8] ∧
    (RocksRecoveryUnit.mk0 true).get
        { store := [((2, [9]), [1, 2])], counters := [] } 2 [9] =
      (RocksRecoveryUnit.mk0 true).getFromStore
        { store := [((2, [9]), [1, 2])], counters := [] } 2 [9] :=
  ⟨C8_read_protocol.2.1 ((RocksRecoveryUnit.mk0 true).doPut 2 [9] [5])
      { store := [((2, [9]), [1, 2])], counters := [] } 2 [9]
      [WriteOp.put 2 [9] [5]] [5] rfl (by decide) (by decide),
   C8_read_protocol.1 (((RocksRecoveryUnit.mk0 true).doPut 2 [9] [5]).doDelete 2 [9])
      { store := [((2, [9]), [1, 2])], counters := [] } 2 [9]
      [WriteOp.put 2 [9] [5], WriteOp.del 2 [9]] rfl (by decide) (by decide),
   C8_read_protocol.2.2.1 ((RocksRecoveryUnit.mk0 true).doPut 2 [9] [5])
      { store := [((2, [9]), [1, 2])], counters := [] } 2 [8]
      [WriteOp.put 2 [9] [5]] rfl (by decide) (by decide),
   C8_read_protocol.2.2.2.1 (RocksRecoveryUnit.mk0 true)
      { store := [((2, [9]), [1, 2])], counters := [] } 2 [9] (Or.inl rfl)⟩

/-- C9 counterexample: after the depth-1 commit of a unit holding one
buffered put, the closing `endUnitOfWork` runs `_abort()`, which calls
`_transaction.abort()` unconditionally (line 161): the already-clean
abort still emits one external conflict-tracker notification, not
none. -/
theorem C9_counterexample :
    (((((RocksRecoveryUnit.mk0 true).beginUnitOfWork).doPut 1 [107]
          [118]).commitUnitOfWork w0).ru.endUnitOfWork
        ((((RocksRecoveryUnit.mk0 true).beginUnitOfWork).doPut 1 [107]
          [118]).commitUnitOfWork w0).world).events = [Event.txnAbort] ∧
    [Event.txnAbort] ≠ ([] : List Event) := by
  decide

theorem abortPhys_events_clean (ru : RocksRecoveryUnit) (w : World)
    (hch : ru._changes = []) (hs : ru._snapshot = none) :
    (ru.abortPhys w).events = [Event.txnAbort] := by
  simp [RocksRecoveryUnit.abortPhys, hch, RocksRecoveryUnit.releaseSnapshotF, hs]

/-- C9 amended: after `commitUnitOfWork` has performed the physical
commit at depth 1, the closing `endUnitOfWork` brings the depth to 0
and runs an abort with no further physical action — no change rollback,
no store write, no snapshot release, and no change to the unit's
buffers, change list, snapshot slot or to the world — but that abort
does emit the unconditional conflict-tracker abort notification
(line 161), its only external call. -/
theorem C9_amended (ru : RocksRecoveryUnit) (w : World)
    (hd : ru._depth = 1) (hb : ru._writeBatch.isSome = true) :
    ((ru.commitUnitOfWork w).ru.endUnitOfWork
        (ru.commitUnitOfWork w).world).events = [Event.txnAbort] ∧
    ((ru.commitUnitOfWork w).ru.endUnitOfWork
        (ru.commitUnitOfWork w).world).world = (ru.commitUnitOfWork w).world ∧
    ((ru.commitUnitOfWork w).ru.endUnitOfWork
        (ru.commitUnitOfWork w).world).ru._depth = 0 ∧
    ((ru.commitUnitOfWork w).ru.endUnitOfWork
        (ru.commitUnitOfWork w).world).ru._changes =
      (ru.commitUnitOfWork w).ru._changes ∧
    ((ru.commitUnitOfWork w).ru.endUnitOfWork
        (ru.commitUnitOfWork w).world).ru._deltaCounters =
      (ru.commitUnitOfWork w).ru._deltaCounters ∧
    ((ru.commitUnitOfWork w).ru.endUnitOfWork
        (ru.commitUnitOfWork w).world).ru._writeBatch =
      (ru.commitUnitOfWork w).ru._writeBatch ∧
    ((ru.commitUnitOfWork w).ru.endUnitOfWork
        (ru.commitUnitOfWork w).world).ru._snapshot =
      (ru.commitUnitOfWork w).ru._snapshot := by
  have hdle : ¬ ru._depth > 1 := by rw [hd]; decide
  obtain ⟨hch, hsn, hdp, himp, _⟩ := commitUnitOfWork_fields ru w hdle
  obtain ⟨hdc, hwb⟩ := himp hb
  have hz : (ru.commitUnitOfWork w).ru._depth - 1 = 0 := by
    rw [hdp, hd]; decide
  have hend : (ru.commitUnitOfWork w).ru.endUnitOfWork (ru.commitUnitOfWork w).world
      = ({ (ru.commitUnitOfWork w).ru with
            _depth := (ru.commitUnitOfWork w).ru._depth - 1 } :
          RocksRecoveryUnit).abortPhys (ru.commitUnitOfWork w).world := by
    simp [RocksRecoveryUnit.endUnitOfWork, hz]
  rw [hend]
  obtain ⟨a1, a2, a3, a4, a5, a6⟩ :=
    abortPhys_fields
      ({ (ru.commitUnitOfWork w).ru with
          _depth := (ru.commitUnitOfWork w).ru._depth - 1 })
      (ru.commitUnitOfWork w).world
  refine ⟨abortPhys_events_clean _ _ hch hsn, a6, ?_, a3.trans hch.symm,
          a1.trans hdc.symm, a2.trans hwb.symm, a4.trans hsn.symm⟩
  exact a5.trans hz

/-- C9 witness: the amended theorem applied to `ruC1` (depth 1, write
batch present). -/
theorem C9_amended_witness :
    ((ruC1.commitUnitOfWork w0).ru.endUnitOfWork
        (ruC1.commitUnitOfWork w0).world).events = [Event.txnAbort] :=
  (C9_amended ruC1 w0 rfl rfl).1
